import Mathlib

/-!
Verification development for the TuxSEO frontend (Stimulus controllers).

Shallow embedding of the client-side logic of:
* `frontend/src/controllers/generate-content-controller.js` (pipeline `generate`,
  `continue`, `_executeStep`, `_getBackendStepName`),
* the retry-capable pipeline controller (`startPipeline`, `executeStep`,
  `retryStep`, `onPipelineComplete`),
* the polling/localStorage controller (`_checkForOngoingTask`, `generate`,
  `_pollTaskStatus`, `_updateToCompletedState`, `_resetToInitialState`),
* `frontend/src/controllers/onboarding_modal_controller.js` (`submitProject`,
  `goToStep`),
* `frontend/src/constants/analytics_events.js`.

Network responses are inputs to the model (a function from step key or attempt
number to the decoded response); DOM and localStorage mutations are modelled as
explicit effect lists or class-list states.
-/

namespace TuxSEO

/-- The fixed pipeline step order, `this.pipelineSteps` in
`generate-content-controller.js` (and the `key` fields of `this.stepNames`
in the retry-capable controller). -/
def pipelineSteps : List String :=
  ["structure", "content", "preliminary_validation", "internal_links", "final_validation"]

/-- Sequential execution of `_executeStep` over a list of step keys, as in
`for (const step of this.pipelineSteps) { await this._executeStep(step); }`.
`env s = true` means the POST to `/step/<s>` reported success; on failure
`_executeStep` throws, so the loop aborts right after the failing step's
request.  The result is the list of step keys whose request was issued,
in issue order. -/
def runSteps (env : String → Bool) : List String → List String
  | [] => []
  | s :: rest => if env s then s :: runSteps env rest else [s]

/-- The steps whose request `generate` issues: none when the start POST to
`/api/generate-blog-content-pipeline/<id>/start` failed (the `throw` before the
loop), otherwise the sequential run over `pipelineSteps`. -/
def generateExecutedSteps (startOk : Bool) (env : String → Bool) : List String :=
  if startOk then runSteps env pipelineSteps else []

theorem runSteps_eq_takeWhile (env : String → Bool) (l : List String) :
    runSteps env l = l.takeWhile env ++ (l.dropWhile env).take 1 := by
  induction l with
  | nil => rfl
  | cons s rest ih =>
    by_cases h : env s = true
    · simp [runSteps, List.takeWhile_cons, List.dropWhile_cons, h, ih]
    · simp only [Bool.not_eq_true] at h
      simp [runSteps, List.takeWhile_cons, List.dropWhile_cons, h]

theorem runSteps_prefix_prop (env : String → Bool) (l : List String) :
    (runSteps env l) <+: l := by
  rw [runSteps_eq_takeWhile]
  refine ⟨(l.dropWhile env).drop 1, ?_⟩
  rw [List.append_assoc, List.take_append_drop, List.takeWhile_append_dropWhile]

/-- Claim C1: after a successful start of the content-generation pipeline, the
client issues step requests in the fixed order of `pipelineSteps`: the issued
steps form a prefix of `pipelineSteps` consisting of the maximal run of
successful steps followed by the first failing step (if any), so each request
follows a successful predecessor and nothing after the first failure runs. -/
theorem generate_pipeline_order (startOk : Bool) (env : String → Bool)
    (h : startOk = true) :
    generateExecutedSteps startOk env <+: pipelineSteps ∧
    generateExecutedSteps startOk env =
      pipelineSteps.takeWhile env ++ (pipelineSteps.dropWhile env).take 1 := by
  subst h
  exact ⟨runSteps_prefix_prop env pipelineSteps, runSteps_eq_takeWhile env pipelineSteps⟩

/-- Claim C1 witness: a run in which the third step fails issues exactly the
first three requests, in pipeline order. -/
theorem generate_pipeline_order_witness :
    generateExecutedSteps true (fun s => s != "preliminary_validation") <+: pipelineSteps ∧
    generateExecutedSteps true (fun s => s != "preliminary_validation") =
      pipelineSteps.takeWhile (fun s => s != "preliminary_validation") ++
        (pipelineSteps.dropWhile (fun s => s != "preliminary_validation")).take 1 :=
  generate_pipeline_order true (fun s => s != "preliminary_validation") rfl

/-- `_getBackendStepName` in `generate-content-controller.js`: the frontend →
backend step-name map, falling back to the input itself. -/
def getBackendStepName (frontendStepName : String) : String :=
  if frontendStepName = "structure" then "generate_structure"
  else if frontendStepName = "content" then "generate_content"
  else if frontendStepName = "preliminary_validation" then "preliminary_validation"
  else if frontendStepName = "internal_links" then "insert_internal_links"
  else if frontendStepName = "final_validation" then "final_validation"
  else frontendStepName

/-- The status recorded for a frontend step in the `/status` response:
`statusData.steps?.[backend_step]`, where `statusMap` is `statusData.steps`
(`none` when the `steps` object is absent) and each entry's `.status` string
is what the map yields. -/
def backendStepStatus (statusMap : Option (String → Option String))
    (frontendStepName : String) : Option String :=
  match statusMap with
  | none => none
  | some m => m (getBackendStepName frontendStepName)

/-- `continue`'s selection loop: push the frontend step onto
`steps_to_execute` when `!step_status || step_status.status !== "completed"`. -/
def stepsToExecute (statusMap : Option (String → Option String)) : List String :=
  pipelineSteps.filter (fun fs =>
    match backendStepStatus statusMap fs with
    | none => true
    | some st => st != "completed")

/-- The steps `continue` actually runs: the sequential `_executeStep` loop
over `steps_to_execute` (aborting after the first failing step, as in
`generate`). -/
def continueExecutedSteps (statusMap : Option (String → Option String))
    (env : String → Bool) : List String :=
  runSteps env (stepsToExecute statusMap)

theorem runSteps_all_ok (env : String → Bool) (l : List String)
    (h : ∀ s ∈ l, env s = true) : runSteps env l = l := by
  induction l with
  | nil => rfl
  | cons s rest ih =>
      have hs := h s (List.mem_cons_self s rest)
      simp only [runSteps, hs, if_true]
      rw [ih (fun x hx => h x (List.mem_cons_of_mem s hx))]

/-- Claim C3: when the pipeline is continued, the client executes exactly the
steps whose backend status is not `"completed"` (a missing status counting as
not completed), in the original pipeline order: the selected list is a
sublist of `pipelineSteps`, membership is characterised by the recorded
status, and — provided each selected step's request succeeds — the executed
steps are exactly the selected ones. -/
theorem continue_executes_uncompleted (statusMap : Option (String → Option String))
    (env : String → Bool)
    (h : ∀ s ∈ stepsToExecute statusMap, env s = true) :
    continueExecutedSteps statusMap env = stepsToExecute statusMap ∧
    List.Sublist (stepsToExecute statusMap) pipelineSteps ∧
    (∀ s, s ∈ stepsToExecute statusMap ↔
        s ∈ pipelineSteps ∧ backendStepStatus statusMap s ≠ some "completed") := by
  refine ⟨runSteps_all_ok env _ h, List.filter_sublist _, ?_⟩
  intro s
  rw [stepsToExecute, List.mem_filter]
  constructor
  · rintro ⟨hmem, hcond⟩
    refine ⟨hmem, ?_⟩
    intro hst
    rw [hst] at hcond
    simp at hcond
  · rintro ⟨hmem, hst⟩
    refine ⟨hmem, ?_⟩
    cases hbs : backendStepStatus statusMap s with
    | none => simp
    | some st =>
        rw [hbs] at hst
        simp only [bne_iff_ne, ne_eq]
        intro heq
        exact hst (by rw [heq])

/-- Claim C3 witness: with `generate_structure` and `generate_content`
recorded completed and everything succeeding, `continue` runs exactly the
last three steps, in order. -/
theorem continue_executes_uncompleted_witness :
    continueExecutedSteps
        (some (fun b => if b = "generate_structure" ∨ b = "generate_content"
                        then some "completed" else none))
        (fun _ => true) =
      stepsToExecute
        (some (fun b => if b = "generate_structure" ∨ b = "generate_content"
                        then some "completed" else none)) ∧
    List.Sublist
      (stepsToExecute
        (some (fun b => if b = "generate_structure" ∨ b = "generate_content"
                        then some "completed" else none)))
      pipelineSteps ∧
    (∀ s, s ∈ stepsToExecute
        (some (fun b => if b = "generate_structure" ∨ b = "generate_content"
                        then some "completed" else none)) ↔
        s ∈ pipelineSteps ∧
        backendStepStatus
          (some (fun b => if b = "generate_structure" ∨ b = "generate_content"
                          then some "completed" else none)) s ≠ some "completed") :=
  continue_executes_uncompleted _ (fun _ => true) (fun _ _ => rfl)

/-! ### Retry-capable pipeline controller -/

/-- Decoded outcome of one step POST in the retry-capable controller's
`executeStep`: the JSON reported success, the JSON carried
`status: "error"`, or the fetch / JSON decoding itself threw. -/
inductive StepResp
  | ok
  | errorStatus
  | fetchError
deriving DecidableEq, Repr

/-- `executeStep`'s boolean return value: `true` only when the response
neither reported `status: "error"` nor threw. -/
def executeStepSuccess : StepResp → Bool
  | .ok => true
  | .errorStatus => false
  | .fetchError => false

/-- `this.maxRetries` in `connect`. -/
def maxRetries : Nat := 3

/-- What `executeStep` does after the step request, as a function of the
step's current retry count (`this.retryCount[step.key] || 0`) and the decoded
response: succeed, offer a retry (carrying the `remainingRetries` shown on the
button), or report a final failure.  `failedAfterMax` is the
`failed after ${this.maxRetries} attempts` message path; `failedException` is
the `catch` branch, which shows an error without a retry button. -/
inductive ExecOutcome
  | success
  | retryOffered (remaining : Nat)
  | failedAfterMax
  | failedException
deriving DecidableEq, Repr

def executeStepOutcome (retryCount : Nat) (resp : StepResp) : ExecOutcome :=
  match resp with
  | .ok => .success
  | .errorStatus =>
      if retryCount < maxRetries then .retryOffered (maxRetries - retryCount)
      else .failedAfterMax
  | .fetchError => .failedException

/-- `retryStep`'s update of `this.retryCount`:
`this.retryCount[stepKey] = (this.retryCount[stepKey] || 0) + 1`.
Counts are modelled as a total function with default 0. -/
def retryIncrement (counts : String → Nat) (k : String) : String → Nat :=
  fun s => if s = k then counts k + 1 else counts s

/-- Observable events of `startPipeline`: a step POST being issued, the
`onPipelineComplete` call, and the `catch`-branch `showError`. -/
inductive PEvent
  | stepRequest (s : String)
  | completeCalled
  | errorShown
deriving DecidableEq, Repr

/-- The `for` loop of `startPipeline`: each iteration issues the step's
request via `executeStep`; when `executeStep` returns `false` the loop
`break`s, so the failing step's request is the last event. -/
def pipelineLoopTrace (env : String → StepResp) : List String → List PEvent
  | [] => []
  | s :: rest =>
      if executeStepSuccess (env s) then
        .stepRequest s :: pipelineLoopTrace env rest
      else
        [.stepRequest s]

/-- The whole of `startPipeline` after the start POST: when the start POST
succeeded, the controller runs the step loop and then — with no guard on how
the loop ended — calls `this.onPipelineComplete()`; when the start POST
reported an error, the `throw` lands in the `catch` branch and only
`showError` runs. -/
def startPipelineTrace (startOk : Bool) (env : String → StepResp) : List PEvent :=
  if startOk then pipelineLoopTrace env pipelineSteps ++ [.completeCalled]
  else [.errorShown]

/-- Whether every one of the five steps returned success under `env`. -/
def pipelineAllSucceeded (env : String → StepResp) : Bool :=
  pipelineSteps.all (fun s => executeStepSuccess (env s))

/-- Claim C2: refuted on the code.  With a successful start but the very first
step (`structure`) answering `status: "error"`, the loop breaks after one step
request, not all five steps succeeded, and yet `onPipelineComplete` is still
called — `startPipeline` invokes it unconditionally after the loop, contrary
to its own `All steps completed successfully` comment. -/
theorem startPipeline_complete_despite_failure :
    startPipelineTrace true (fun _ => StepResp.errorStatus) =
      [PEvent.stepRequest "structure", PEvent.completeCalled] ∧
    pipelineAllSucceeded (fun _ => StepResp.errorStatus) = false ∧
    PEvent.completeCalled ∈ startPipelineTrace true (fun _ => StepResp.errorStatus) := by
  refine ⟨rfl, rfl, ?_⟩
  simp [startPipelineTrace, pipelineLoopTrace, pipelineSteps, executeStepSuccess]

/-- Claim C4: the retry policy of the retry-capable controller.  A retry is
offered only while the step's recorded count is strictly below `maxRetries`
(= 3); `retryStep` increments exactly the retried step's count by exactly 1;
and once the count has reached 3, a further `status: "error"` response takes
the `failed after 3 attempts` path with no retry offered. -/
theorem retry_policy :
    (∀ (c : Nat) (resp : StepResp) (r : Nat),
        executeStepOutcome c resp = .retryOffered r → c < maxRetries) ∧
    (∀ (counts : String → Nat) (k : String),
        retryIncrement counts k k = counts k + 1 ∧
        ∀ s, s ≠ k → retryIncrement counts k s = counts s) ∧
    (∀ c : Nat, maxRetries ≤ c →
        executeStepOutcome c .errorStatus = .failedAfterMax) := by
  refine ⟨?_, ?_, ?_⟩
  · intro c resp r h
    cases resp with
    | ok => simp [executeStepOutcome] at h
    | errorStatus =>
        by_cases hc : c < maxRetries
        · exact hc
        · simp [executeStepOutcome, hc] at h
    | fetchError => simp [executeStepOutcome] at h
  · intro counts k
    refine ⟨by simp [retryIncrement], ?_⟩
    intro s hs
    simp [retryIncrement, hs]
  · intro c hc
    simp [executeStepOutcome, Nat.not_lt.mpr hc]

/-- Claim C4 witness: at count 2 an error still offers a retry (1 attempt
left); after the third retry brought the count to 3, a further error takes the
final-failure path. -/
theorem retry_policy_witness :
    (2 : Nat) < maxRetries ∧
    executeStepOutcome 3 .errorStatus = .failedAfterMax ∧
    retryIncrement (fun _ => 2) "content" "content" = 3 :=
  ⟨by decide, retry_policy.2.2 3 (by decide), (retry_policy.2.1 (fun _ => 2) "content").1⟩

/-! ### Polling / localStorage task controller -/

/-- Effects of `_checkForOngoingTask` on `connect`: showing the generating
UI (button + status), restarting status polling with the stored task id, and
removing the `blog_generation_task_<suggestionId>` localStorage entry. -/
inductive ConnectEffect
  | showGeneratingUI
  | pollTask (taskId : String)
  | removeTask
deriving DecidableEq, Repr

/-- The 10-minute resumption window in milliseconds.  The code compares
`(Date.now() - startTime) / 1000 / 60 < 10`, which over exact arithmetic is
`now - startTime < 10 * 60 * 1000`. -/
def tenMinutesMs : Int := 10 * 60 * 1000

/-- `_checkForOngoingTask`, with the localStorage read and JSON parse as
input: `stored = none` when no entry exists under the task key, `some none`
when the entry exists but parsing throws (the `catch` branch), and
`some (some (taskId, startTime))` when it parses. -/
def checkForOngoingTask (stored : Option (Option (String × Int))) (now : Int) :
    List ConnectEffect :=
  match stored with
  | none => []
  | some none => [.removeTask]
  | some (some (tid, start)) =>
      if now - start < tenMinutesMs then [.showGeneratingUI, .pollTask tid]
      else [.removeTask]

/-- Claim C5: on connect, a stored generation task is resumed (generating UI
shown, polling restarted with the stored task id) exactly when the entry
parses and its start time lies less than 10 minutes before `now`; a stale or
unparsable entry is removed instead, with no resume. -/
theorem resume_iff_recent (stored : Option (Option (String × Int))) (now : Int) :
    (∀ tid, ConnectEffect.pollTask tid ∈ checkForOngoingTask stored now ↔
        ∃ start, stored = some (some (tid, start)) ∧ now - start < tenMinutesMs) ∧
    (ConnectEffect.removeTask ∈ checkForOngoingTask stored now ↔
        stored = some none ∨
        ∃ tid start, stored = some (some (tid, start)) ∧ tenMinutesMs ≤ now - start) ∧
    (∀ tid, ConnectEffect.pollTask tid ∈ checkForOngoingTask stored now →
        ConnectEffect.showGeneratingUI ∈ checkForOngoingTask stored now) ∧
    (ConnectEffect.removeTask ∈ checkForOngoingTask stored now →
        ∀ tid, ConnectEffect.pollTask tid ∉ checkForOngoingTask stored now ∧
          ConnectEffect.showGeneratingUI ∉ checkForOngoingTask stored now) := by
  match stored with
  | none =>
      simp [checkForOngoingTask]
  | some none =>
      simp [checkForOngoingTask]
  | some (some (tid0, start0)) =>
      by_cases hlt : now - start0 < tenMinutesMs
      · simp only [checkForOngoingTask, hlt, if_true]
        refine ⟨?_, ?_, ?_, ?_⟩
        · intro tid
          constructor
          · intro hmem
            have htid : tid = tid0 := by simpa using hmem
            subst htid
            exact ⟨start0, rfl, hlt⟩
          · rintro ⟨start, heq, _⟩
            simp only [Option.some_inj, Prod.mk.injEq] at heq
            obtain ⟨h1, h2⟩ := heq
            subst h1
            simp
        · constructor
          · intro hmem
            simp at hmem
          · rintro (h | ⟨tid, start, heq, hge⟩)
            · exact absurd h (by simp)
            · simp only [Option.some_inj, Prod.mk.injEq] at heq
              obtain ⟨h1, h2⟩ := heq
              subst h2
              exact absurd hlt (by omega)
        · intro tid _
          simp
        · intro hmem
          simp at hmem
      · simp only [checkForOngoingTask, hlt, if_false]
        refine ⟨?_, ?_, ?_, ?_⟩
        · intro tid
          constructor
          · intro hmem
            simp at hmem
          · rintro ⟨start, heq, hrec⟩
            simp only [Option.some_inj, Prod.mk.injEq] at heq
            obtain ⟨h1, h2⟩ := heq
            subst h2
            exact absurd hrec hlt
        · constructor
          · intro _
            exact Or.inr ⟨tid0, start0, rfl, by omega⟩
          · intro _
            simp
        · intro tid hmem
          simp at hmem
        · intro _ tid
          simp

/-- Claim C5 witness: a stored task parsed as id `"t1"` started right now is
resumed with that task id. -/
theorem resume_iff_recent_witness :
    ConnectEffect.pollTask "t1" ∈ checkForOngoingTask (some (some ("t1", 0))) 0 :=
  ((resume_iff_recent (some (some ("t1", 0))) 0).1 "t1").mpr ⟨0, rfl, by decide⟩

/-- The decoded `/api/task-status/<taskId>` response at a given attempt
number (JS increments `attempts` at the start of each poll): `completed`
carries the `blog_post_id`, `failed` and `errorStatus` are the backend's
failure statuses, and `fetchFail` covers a non-OK response or a thrown
fetch/decode error. -/
inductive PollStatus
  | completed (blogPostId : Nat)
  | failed
  | processing
  | errorStatus
  | fetchFail
deriving DecidableEq, Repr

/-- How polling ends: `_updateToCompletedState` on success, or the `catch`
branch (`showMessage` error + `_resetToInitialState`) on any failure,
including poll-limit exhaustion. -/
inductive PollResult
  | completedOk (blogPostId : Nat)
  | errorReset
deriving DecidableEq, Repr

/-- `maxAttempts` in `_pollTaskStatus`. -/
def maxAttempts : Nat := 100

/-- `pollInterval` (ms) in `_pollTaskStatus`. -/
def pollInterval : Nat := 3000

/-- `initialDelay` (ms) in `_pollTaskStatus`. -/
def initialDelay : Nat := 2000

/-- The `poll` closure of `_pollTaskStatus`: `a` is the number of attempts
already made, `t` the (ms) time at which this invocation fires, and the
result lists the firing times of every status request issued plus the final
outcome.  On `processing` with `attempts >= maxAttempts` the code throws
(error + UI reset); otherwise it schedules the next poll `pollInterval`
later.  The structural `fuel` only makes the recursion evident to Lean: from
the entry point `fuel = maxAttempts - a` always, so the fuel-0 branch (which
mirrors the limit check's outcome) is never reached. -/
def pollLoop (resp : Nat → PollStatus) : Nat → Nat → Nat → List Nat × PollResult
  | 0, _, t => ([t], .errorReset)
  | fuel + 1, a, t =>
      match resp (a + 1) with
      | .completed id => ([t], .completedOk id)
      | .failed => ([t], .errorReset)
      | .errorStatus => ([t], .errorReset)
      | .fetchFail => ([t], .errorReset)
      | .processing =>
          if maxAttempts ≤ a + 1 then ([t], .errorReset)
          else
            let r := pollLoop resp fuel (a + 1) (t + pollInterval)
            (t :: r.1, r.2)

/-- `_pollTaskStatus` itself: the first poll fires `initialDelay` after the
call (at time `t0`), with the attempt counter at 0. -/
def pollTaskStatus (resp : Nat → PollStatus) (t0 : Nat) : List Nat × PollResult :=
  pollLoop resp maxAttempts 0 (t0 + initialDelay)

theorem pollLoop_head (resp : Nat → PollStatus) (fuel a t : Nat) :
    (pollLoop resp fuel a t).1.head? = some t := by
  cases fuel with
  | zero => rfl
  | succ fuel =>
      cases hr : resp (a + 1) with
      | completed id => simp [pollLoop, hr]
      | failed => simp [pollLoop, hr]
      | errorStatus => simp [pollLoop, hr]
      | fetchFail => simp [pollLoop, hr]
      | processing => by_cases hm : maxAttempts ≤ a + 1 <;> simp [pollLoop, hr, hm]

theorem pollLoop_chain (resp : Nat → PollStatus) :
    ∀ fuel a t, List.Chain' (fun x y => y = x + pollInterval) (pollLoop resp fuel a t).1
  | 0, _, _ => List.chain'_singleton _
  | fuel + 1, a, t => by
      cases hr : resp (a + 1) with
      | completed id => simp [pollLoop, hr]
      | failed => simp [pollLoop, hr]
      | errorStatus => simp [pollLoop, hr]
      | fetchFail => simp [pollLoop, hr]
      | processing =>
          by_cases hm : maxAttempts ≤ a + 1
          · simp [pollLoop, hr, hm]
          · have ih := pollLoop_chain resp fuel (a + 1) (t + pollInterval)
            have hh := pollLoop_head resp fuel (a + 1) (t + pollInterval)
            simp only [pollLoop, hr, hm, if_false]
            rw [List.chain'_cons']
            refine ⟨?_, ih⟩
            intro b hb
            rw [hh] at hb
            simp only [Option.mem_def, Option.some_inj] at hb
            omega

theorem pollLoop_length (resp : Nat → PollStatus) :
    ∀ fuel a t, maxAttempts ≤ a + fuel → a < maxAttempts →
      (pollLoop resp fuel a t).1.length ≤ fuel
  | 0, a, _, hle, hlt => absurd hle (by omega)
  | fuel + 1, a, t, hle, hlt => by
      cases hr : resp (a + 1) with
      | completed id => simp [pollLoop, hr]
      | failed => simp [pollLoop, hr]
      | errorStatus => simp [pollLoop, hr]
      | fetchFail => simp [pollLoop, hr]
      | processing =>
          by_cases hm : maxAttempts ≤ a + 1
          · simp [pollLoop, hr, hm]
          · have ih := pollLoop_length resp fuel (a + 1) (t + pollInterval)
              (by omega) (by omega)
            simp only [pollLoop, hr, hm, if_false, List.length_cons]
            omega

theorem pollLoop_processing (resp : Nat → PollStatus)
    (hp : ∀ n, resp n = PollStatus.processing) :
    ∀ fuel a t, a + fuel = maxAttempts → a < maxAttempts →
      (pollLoop resp fuel a t).2 = PollResult.errorReset ∧
      (pollLoop resp fuel a t).1.length = fuel
  | 0, a, _, heq, hlt => absurd heq (by omega)
  | fuel + 1, a, t, heq, hlt => by
      by_cases hm : maxAttempts ≤ a + 1
      · have hfuel : fuel = 0 := by omega
        subst hfuel
        simp [pollLoop, hp (a + 1), hm]
      · have ih := pollLoop_processing resp hp fuel (a + 1) (t + pollInterval)
          (by omega) (by omega)
        simp only [pollLoop, hp (a + 1), hm, if_false, List.length_cons]
        exact ⟨ih.1, by omega⟩

/-- Claim C6: task-status polling issues at most `maxAttempts` (= 100)
requests, the first firing `initialDelay` (= 2000 ms) after the call and each
subsequent one `pollInterval` (= 3000 ms) after the previous; and when the
response is still `processing` at every attempt, exactly 100 requests are
issued and polling ends in the error path that shows a message and resets the
UI to the initial Generate state. -/
theorem poll_request_bound (resp : Nat → PollStatus) (t0 : Nat) :
    (pollTaskStatus resp t0).1.length ≤ maxAttempts ∧
    (pollTaskStatus resp t0).1.head? = some (t0 + initialDelay) ∧
    List.Chain' (fun x y => y = x + pollInterval) (pollTaskStatus resp t0).1 ∧
    ((∀ n, resp n = PollStatus.processing) →
        (pollTaskStatus resp t0).2 = PollResult.errorReset ∧
        (pollTaskStatus resp t0).1.length = maxAttempts) := by
  refine ⟨?_, ?_, ?_, ?_⟩
  · exact pollLoop_length resp maxAttempts 0 _ (by omega) (by decide)
  · exact pollLoop_head resp maxAttempts 0 _
  · exact pollLoop_chain resp maxAttempts 0 _
  · intro hp
    exact pollLoop_processing resp hp maxAttempts 0 _ (by omega) (by decide)

/-- Claim C6 witness: with every status request answering `processing`,
polling from time 0 makes exactly 100 requests and ends in the
error-and-reset path. -/
theorem poll_request_bound_witness :
    (pollTaskStatus (fun _ => PollStatus.processing) 0).2 = PollResult.errorReset ∧
    (pollTaskStatus (fun _ => PollStatus.processing) 0).1.length = maxAttempts :=
  (poll_request_bound (fun _ => PollStatus.processing) 0).2.2.2 (fun _ => rfl)

/-- localStorage / UI effects of the task controller's terminal handlers. -/
inductive Effect
  | removeTask
  | setTask (taskId : String)
  | completedUI (blogPostId : Nat)
  | initialUI
  | successMessage
  | errorMessage
deriving DecidableEq, Repr

/-- `_updateToCompletedState`: remove the localStorage entry, swap the button
and status to the completed UI, append the post button, show the success
message. -/
def updateToCompletedState (blogPostId : Nat) : List Effect :=
  [.removeTask, .completedUI blogPostId, .successMessage]

/-- `_resetToInitialState`: remove the localStorage entry, restore the
Generate button and the initial status. -/
def resetToInitialState : List Effect :=
  [.removeTask, .initialUI]

/-- The dispatch at the end of polling: a `completed` status runs
`_updateToCompletedState`; every thrown error (failed status, error status,
fetch failure, poll-limit exhaustion) lands in the `catch` branch, which shows
the error message and runs `_resetToInitialState`. -/
def terminalEffects : PollResult → List Effect
  | .completedOk id => updateToCompletedState id
  | .errorReset => .errorMessage :: resetToInitialState

/-- The `catch` branch of the task controller's `generate`: `showMessage`
with the error, then `_resetToInitialState`. -/
def generateCatchEffects : List Effect :=
  .errorMessage :: resetToInitialState

/-- The localStorage cell for `blog_generation_task_<suggestionId>` under one
effect. -/
def applyEffect (store : Option String) : Effect → Option String
  | .removeTask => none
  | .setTask tid => some tid
  | _ => store

def applyEffects (store : Option String) (effs : List Effect) : Option String :=
  effs.foldl applyEffect store

/-- Claim C9: every terminal transition of a tracked generation task —
completion, any polling failure (including poll-limit exhaustion), and the
error path of `generate` — performs the localStorage removal, and after its
effects no task record remains, whatever was stored before. -/
theorem terminal_clears_task_record :
    (∀ (r : PollResult) (store : Option String),
        Effect.removeTask ∈ terminalEffects r ∧
        applyEffects store (terminalEffects r) = none) ∧
    (∀ store : Option String,
        Effect.removeTask ∈ generateCatchEffects ∧
        applyEffects store generateCatchEffects = none) := by
  constructor
  · intro r store
    cases r <;>
      simp [terminalEffects, updateToCompletedState, resetToInitialState,
        applyEffects, applyEffect]
  · intro store
    simp [generateCatchEffects, resetToInitialState, applyEffects, applyEffect]

/-! ### Onboarding modal -/

/-- JavaScript `String.prototype.trim()`: strip leading and trailing
whitespace.  Defined over the character list so it evaluates in the kernel. -/
def jsTrim (s : String) : String :=
  ⟨((s.data.dropWhile Char.isWhitespace).reverse.dropWhile Char.isWhitespace).reverse⟩

/-- Actions `submitProject` can take before its async continuation: a
`goToStep(n)` call and the project-creation POST to `/api/projects/` with the
trimmed URL. -/
inductive SubmitAction
  | stepChange (n : Nat)
  | postProjects (url : String)
deriving DecidableEq, Repr

/-- `submitProject` up to the POST: the guard
`if (!url_value || !this.isUrlReachable) return;` (where `url_value` is the
trimmed input, falsy exactly when empty), then `goToStep(2)` and the fetch. -/
def submitProject (input : String) (isUrlReachable : Bool) : List SubmitAction :=
  let url := jsTrim input
  if url = "" ∨ isUrlReachable = false then []
  else [.stepChange 2, .postProjects url]

/-- Claim C7: `submitProject` issues the project-creation request — preceded
by the move to step 2 — exactly when the trimmed URL is non-empty and the
reachability check has set `isUrlReachable`; otherwise it performs no action
at all (no request, no step change). -/
theorem submitProject_guard (input : String) (r : Bool) :
    (submitProject input r =
        [SubmitAction.stepChange 2, SubmitAction.postProjects (jsTrim input)] ↔
      jsTrim input ≠ "" ∧ r = true) ∧
    (¬(jsTrim input ≠ "" ∧ r = true) → submitProject input r = []) := by
  by_cases h1 : jsTrim input = "" <;> cases r <;> simp [submitProject, h1]

/-- Claim C7 witness: an empty input issues nothing even when reachable, and
a reachable non-empty URL issues the step change and the POST. -/
theorem submitProject_guard_witness :
    submitProject "" true = [] ∧
    submitProject " https://x.com " true =
      [SubmitAction.stepChange 2, SubmitAction.postProjects (jsTrim " https://x.com ")] :=
  ⟨(submitProject_guard "" true).2 (by decide),
    (submitProject_guard " https://x.com " true).1.mpr ⟨by decide, rfl⟩⟩

/-- `classList.add(c)`: append the class when absent. -/
def classAdd (l : List String) (c : String) : List String :=
  if c ∈ l then l else l ++ [c]

/-- `classList.remove(c)`. -/
def classRemove (l : List String) (c : String) : List String :=
  l.filter (fun x => x ≠ c)

/-- `classList.add(c₁, c₂, …)`. -/
def classAddMany (l : List String) (cs : List String) : List String :=
  cs.foldl classAdd l

/-- `classList.remove(c₁, c₂, …)`. -/
def classRemoveMany (l : List String) (cs : List String) : List String :=
  cs.foldl classRemove l

theorem mem_classAdd (a c : String) (l : List String) :
    a ∈ classAdd l c ↔ a ∈ l ∨ a = c := by
  unfold classAdd
  by_cases h : c ∈ l
  · simp only [h, if_true]
    constructor
    · exact Or.inl
    · rintro (ha | rfl)
      · exact ha
      · exact h
  · simp [h]

theorem mem_classRemove (a c : String) (l : List String) :
    a ∈ classRemove l c ↔ a ∈ l ∧ a ≠ c := by
  simp [classRemove, List.mem_filter]

/-- The class lists of the three step panels and three step indicators of the
onboarding modal. -/
structure ModalState where
  step1 : List String
  step2 : List String
  step3 : List String
  step1Indicator : List String
  step2Indicator : List String
  step3Indicator : List String
  currentStep : Nat
deriving Repr

/-- The classes `goToStep` puts on the active step's indicator. -/
def activeIndicatorClasses : List String := ["bg-gray-800", "border-gray-800", "w-6"]

/-- The classes `goToStep` puts on an inactive step's indicator. -/
def inactiveIndicatorClasses : List String := ["bg-gray-300", "border-gray-300", "w-4"]

/-- `goToStep(step_number)`: hide all three panels, put every indicator into
the inactive style, then reveal the chosen panel (`remove("hidden")`,
`add("flex")`) and restyle its indicator to active. -/
def goToStep (st : ModalState) (stepNumber : Nat) : ModalState :=
  let base : ModalState :=
    { step1 := classAdd st.step1 "hidden"
      step2 := classAdd st.step2 "hidden"
      step3 := classAdd st.step3 "hidden"
      step1Indicator :=
        classAddMany (classRemoveMany st.step1Indicator activeIndicatorClasses)
          inactiveIndicatorClasses
      step2Indicator :=
        classAddMany (classRemoveMany st.step2Indicator activeIndicatorClasses)
          inactiveIndicatorClasses
      step3Indicator :=
        classAddMany (classRemoveMany st.step3Indicator activeIndicatorClasses)
          inactiveIndicatorClasses
      currentStep := stepNumber }
  if stepNumber = 1 then
    { base with
      step1 := classAdd (classRemove base.step1 "hidden") "flex"
      step1Indicator :=
        classAddMany (classRemoveMany base.step1Indicator inactiveIndicatorClasses)
          activeIndicatorClasses }
  else if stepNumber = 2 then
    { base with
      step2 := classAdd (classRemove base.step2 "hidden") "flex"
      step2Indicator :=
        classAddMany (classRemoveMany base.step2Indicator inactiveIndicatorClasses)
          activeIndicatorClasses }
  else if stepNumber = 3 then
    { base with
      step3 := classAdd (classRemove base.step3 "hidden") "flex"
      step3Indicator :=
        classAddMany (classRemoveMany base.step3Indicator inactiveIndicatorClasses)
          activeIndicatorClasses }
  else base

/-- The panel class list for step `m`. -/
def stepPanel (st : ModalState) : Nat → List String
  | 1 => st.step1
  | 2 => st.step2
  | 3 => st.step3
  | _ => []

/-- The indicator class list for step `m`. -/
def stepIndicator (st : ModalState) : Nat → List String
  | 1 => st.step1Indicator
  | 2 => st.step2Indicator
  | 3 => st.step3Indicator
  | _ => []

/-- An indicator carrying all the active classes and none of the inactive
ones. -/
def indicatorActive (l : List String) : Prop :=
  "bg-gray-800" ∈ l ∧ "border-gray-800" ∈ l ∧ "w-6" ∈ l ∧
  "bg-gray-300" ∉ l ∧ "border-gray-300" ∉ l ∧ "w-4" ∉ l

/-- An indicator carrying all the inactive classes and none of the active
ones. -/
def indicatorInactive (l : List String) : Prop :=
  "bg-gray-300" ∈ l ∧ "border-gray-300" ∈ l ∧ "w-4" ∈ l ∧
  "bg-gray-800" ∉ l ∧ "border-gray-800" ∉ l ∧ "w-6" ∉ l

/-- Claim C10: after `goToStep(n)` with `n ∈ {1,2,3}`, whatever the prior
class lists: only step `n`'s panel lacks `hidden`; step `n`'s indicator
carries the active classes (`bg-gray-800`, `border-gray-800`, `w-6`) and no
inactive one; and each other indicator carries the inactive classes
(`bg-gray-300`, `border-gray-300`, `w-4`) and no active one. -/
theorem goToStep_exclusive (st : ModalState) (n : Nat)
    (h : n = 1 ∨ n = 2 ∨ n = 3) :
    ("hidden" ∉ stepPanel (goToStep st n) n) ∧
    (∀ m, (m = 1 ∨ m = 2 ∨ m = 3) → m ≠ n →
      "hidden" ∈ stepPanel (goToStep st n) m) ∧
    indicatorActive (stepIndicator (goToStep st n) n) ∧
    (∀ m, (m = 1 ∨ m = 2 ∨ m = 3) → m ≠ n →
      indicatorInactive (stepIndicator (goToStep st n) m)) := by
  rcases h with rfl | rfl | rfl <;> refine ⟨?_, ?_, ?_, ?_⟩ <;>
    first
    | (rintro m (rfl | rfl | rfl) hm <;>
        first
        | exact absurd rfl hm
        | simp [goToStep, stepPanel, stepIndicator, classAddMany, classRemoveMany,
            activeIndicatorClasses, inactiveIndicatorClasses, indicatorActive,
            indicatorInactive, mem_classAdd, mem_classRemove])
    | simp [goToStep, stepPanel, stepIndicator, classAddMany, classRemoveMany,
        activeIndicatorClasses, inactiveIndicatorClasses, indicatorActive,
        indicatorInactive, mem_classAdd, mem_classRemove]

/-- A modal whose class lists all start empty. -/
def emptyModalState : ModalState := ⟨[], [], [], [], [], [], 0⟩

/-- Claim C10 witness: from the empty modal, after `goToStep(2)` panel 2 is
visible, panel 3 is hidden, indicator 2 is active and indicator 1 inactive. -/
theorem goToStep_exclusive_witness :
    "hidden" ∉ stepPanel (goToStep emptyModalState 2) 2 ∧
    "hidden" ∈ stepPanel (goToStep emptyModalState 2) 3 ∧
    indicatorActive (stepIndicator (goToStep emptyModalState 2) 2) ∧
    indicatorInactive (stepIndicator (goToStep emptyModalState 2) 1) :=
  ⟨(goToStep_exclusive emptyModalState 2 (Or.inr (Or.inl rfl))).1,
    (goToStep_exclusive emptyModalState 2 (Or.inr (Or.inl rfl))).2.1 3
      (Or.inr (Or.inr rfl)) (by decide),
    (goToStep_exclusive emptyModalState 2 (Or.inr (Or.inl rfl))).2.2.1,
    (goToStep_exclusive emptyModalState 2 (Or.inr (Or.inl rfl))).2.2.2 1
      (Or.inl rfl) (by decide)⟩

/-! ### Analytics event constants -/

/-- JavaScript `toUpperCase` on the ASCII range, per character. -/
def jsCharUpper (c : Char) : Char :=
  if 'a' ≤ c ∧ c ≤ 'z' then Char.ofNat (c.toNat - 32) else c

/-- JavaScript `String.prototype.toUpperCase()` (ASCII). -/
def jsToUpperCase (s : String) : String := ⟨s.data.map jsCharUpper⟩

/-- A JS object used as a string-keyed map: assignment overwrites an existing
key in place and otherwise appends. -/
def objSet (m : List (String × String)) (k v : String) : List (String × String) :=
  if (m.lookup k).isSome then m.map (fun p => if p.1 = k then (k, v) else p)
  else m ++ [(k, v)]

/-- `Object.keys(eventTaxonomy.events || {})` in `analytics_events.js`:
the key list of the taxonomy's `events` object, empty when absent. -/
def canonicalEventNames (events : Option (List String)) : List String :=
  match events with
  | none => []
  | some keys => keys

/-- The `reduce` building the constants object:
`events[eventName.toUpperCase()] = eventName` over the canonical names. -/
def analyticsEvents (names : List String) : List (String × String) :=
  names.foldl (fun acc n => objSet acc (jsToUpperCase n) n) []

/-- Modelled from the spec: `core/analytics/event_taxonomy.json` (imported by
`analytics_events.js`) is not among the provided sources; its `events` keys
are the canonical event list of `docs/event-taxonomy.md`. -/
def eventTaxonomyEventKeys : Option (List String) :=
  some ["site_visited", "signup_completed", "project_created", "project_deleted",
    "first_title_generated", "first_post_generated", "first_publish_attempt",
    "pricing_cta_clicked", "checkout_started", "checkout_completed",
    "checkout_failed", "subscription_created", "subscription_upgraded",
    "subscription_cancelled", "subscription_deleted"]

/-- `ANALYTICS_EVENT_NAMES` as exported. -/
def ANALYTICS_EVENT_NAMES : List String := canonicalEventNames eventTaxonomyEventKeys

/-- `ANALYTICS_EVENTS` as exported. -/
def ANALYTICS_EVENTS : List (String × String) := analyticsEvents ANALYTICS_EVENT_NAMES

/-- Claim C8: `ANALYTICS_EVENT_NAMES` is exactly the key list of the
taxonomy's `events` object (and would be empty were that object absent), and
for every canonical name `n` in it, `ANALYTICS_EVENTS` maps `n.toUpperCase()`
to `n`. -/
theorem analytics_constants_spec :
    (∀ keys, canonicalEventNames (some keys) = keys) ∧
    canonicalEventNames none = [] ∧
    (∀ n ∈ ANALYTICS_EVENT_NAMES,
        List.lookup (jsToUpperCase n) ANALYTICS_EVENTS = some n) := by
  refine ⟨fun _ => rfl, rfl, ?_⟩
  decide

/-- Claim C8 witness: the first and last canonical names are mapped to by
their uppercased forms. -/
theorem analytics_constants_spec_witness :
    List.lookup (jsToUpperCase "site_visited") ANALYTICS_EVENTS = some "site_visited" ∧
    List.lookup (jsToUpperCase "subscription_deleted") ANALYTICS_EVENTS =
      some "subscription_deleted" :=
  ⟨analytics_constants_spec.2.2 "site_visited" (by decide),
    analytics_constants_spec.2.2 "subscription_deleted" (by decide)⟩

end TuxSEO
